import Mathlib

/-!
Verification of the RawHashMobile audio-transcription pipeline.

The TypeScript sources are shallowly embedded: JavaScript strings become
`List Char`, the string operations used by the code (`includes`, `split`,
first-occurrence `replace`, `trim`, the bullet/filler regexes) are modelled
character by character with JavaScript semantics, optional fields become
`Option`, thrown errors become `Except`, and the outcome of `fetch` becomes
an explicit value.
-/

/-! ## JavaScript string primitives on `List Char` -/

/-- The whitespace class used by JavaScript `String.prototype.trim` and the
regex class `\s`, restricted to the code points that can realistically occur
in the strings this app handles. -/
def isJsWs (c : Char) : Bool :=
  c == ' ' || c == '\t' || c == '\n' || c == '\r' || c == '\x0b' ||
  c == '\x0c' || c == '\u00A0' || c == '\uFEFF'

/-- JavaScript `s.trim()`: strip `isJsWs` characters from both ends. -/
def jsTrim (s : List Char) : List Char :=
  ((s.dropWhile isJsWs).reverse.dropWhile isJsWs).reverse

/-- Worker for `splitSeq`.  Scans the string left to right; `skip` counts
characters still to be consumed from a separator match already found, `acc`
holds the current token reversed. -/
def splitSeqGo (sep : List Char) : List Char → Nat → List Char → List (List Char)
  | [], _, acc => [acc.reverse]
  | _ :: rest, skip + 1, acc => splitSeqGo sep rest skip acc
  | c :: rest, 0, acc =>
    if sep.isPrefixOf (c :: rest) ∧ sep ≠ [] then
      acc.reverse :: splitSeqGo sep rest (sep.length - 1) []
    else
      splitSeqGo sep rest 0 (c :: acc)

/-- JavaScript `s.split(sep)` for a non-empty separator string: split at
every non-overlapping occurrence of `sep`, scanning left to right.  (All
call sites in the embedded code pass a non-empty literal separator.) -/
def splitSeq (sep s : List Char) : List (List Char) :=
  splitSeqGo sep s 0 []

/-- JavaScript `s.replace(pat, rep)` with a non-empty string pattern:
replace only the first occurrence of `pat`, returning `s` unchanged when
`pat` does not occur.  (All call sites pass a non-empty literal pattern.) -/
def replaceFirst (pat rep : List Char) : List Char → List Char
  | [] => if pat = [] then rep else []
  | c :: rest =>
    if pat.isPrefixOf (c :: rest) ∧ pat ≠ [] then
      rep ++ rest.drop (pat.length - 1)
    else
      c :: replaceFirst pat rep rest

/-- The regex `^[•\-\*]\s*` of `parseProcessedResult` / `extractKeyPoints`:
if the line starts with a bullet glyph, drop it and the following
whitespace run; otherwise leave the line unchanged. -/
def stripBullet (l : List Char) : List Char :=
  match l with
  | c :: rest =>
    if c = '•' ∨ c = '-' ∨ c = '*' then rest.dropWhile isJsWs else l
  | [] => []

/-- After a matched `um`/`uh`: the `,?\s*` tail of the filler regexes. -/
def skipCommaWs (l : List Char) : List Char :=
  match l with
  | ',' :: t => t.dropWhile isJsWs
  | _ => l.dropWhile isJsWs

/-- One global, case-insensitive replacement pass of the regex
`XY,?\s*` by the empty string, where `X`/`Y` are the lower-case letters of
a two-letter filler word (`um` / `uh`). -/
def replaceFiller (a b : Char) : List Char → List Char
  | [] => []
  | [c] => [c]
  | c1 :: c2 :: rest =>
    if c1.toLower = a ∧ c2.toLower = b then
      replaceFiller a b (skipCommaWs rest)
    else
      c1 :: replaceFiller a b (c2 :: rest)
termination_by l => l.length
decreasing_by
  · simp only [List.length_cons]
    have h : (skipCommaWs rest).length ≤ rest.length := by
      unfold skipCommaWs
      split
      · exact Nat.le_trans (List.dropWhile_suffix isJsWs).length_le (Nat.le_succ _)
      · exact (List.dropWhile_suffix isJsWs).length_le
    omega
  · simp only [List.length_cons]
    omega

/-- `original.replace(/um,?\s*/gi, empty).replace(/uh,?\s*/gi, empty)` from
`getDemoProcessedResult`. -/
def removeFillers (s : List Char) : List Char :=
  replaceFiller 'u' 'h' (replaceFiller 'u' 'm' s)

/-! ## Embedding of `src/services/gemini-service.ts` -/

/-- `export type ProcessingMode` from gemini-service.ts. -/
inductive ProcessingMode where
  | raw
  | clean
  | summary
  | keypoints
  | professional
  | concise
deriving DecidableEq, Repr

/-- `interface ProcessedResult` from gemini-service.ts; the optional
TypeScript fields become `Option`. -/
structure ProcessedResult where
  original : List Char
  processed : List Char
  summary : Option (List Char)
  keyPoints : Option (List (List Char))
deriving DecidableEq, Repr

/-- The marker `TRANSCRIPTION:`. -/
def TM : List Char := "TRANSCRIPTION:".toList

/-- The marker `SUMMARY:`. -/
def SM : List Char := "SUMMARY:".toList

/-- The marker `KEY POINTS:`. -/
def KM : List Char := "KEY POINTS:".toList

/-- The key-point post-processing
`keyPointsText.split(newline).filter(line => line.trim()).map(line =>
line.replace(bulletRegex, empty).trim()).filter(Boolean)` from
`parseProcessedResult`. -/
def parseKeyPoints (t : List Char) : List (List Char) :=
  (((splitSeq ['\n'] t).filter (fun l => !(jsTrim l).isEmpty)).map
    (fun l => jsTrim (stripBullet l))).filter (fun l => !l.isEmpty)

/-- `GeminiService.parseProcessedResult(result, mode, original?)`.
The `summary` branch fires only when the mode is `summary` **and** the
response contains `TRANSCRIPTION:` (`result.includes`); it then splits on
all occurrences of `SUMMARY:`, strips the first `TRANSCRIPTION:` from
`parts[0]`, trims, and stores `parts[1]?.trim()` (empty when absent) as the summary.
The `keypoints` branch is analogous with `KEY POINTS:`.  Otherwise the
whole response is the processed text and no structured field is set. -/
def parseProcessedResult (result : List Char) (mode : ProcessingMode)
    (original : Option (List Char)) : ProcessedResult :=
  if mode = ProcessingMode.summary ∧ TM <:+: result then
    let parts := splitSeq SM result
    let transcription := jsTrim (replaceFirst TM [] (parts.headD []))
    let summaryText := jsTrim (parts.getD 1 [])
    { original := transcription, processed := transcription,
      summary := some summaryText, keyPoints := none }
  else if mode = ProcessingMode.keypoints ∧ TM <:+: result then
    let parts := splitSeq KM result
    let transcription := jsTrim (replaceFirst TM [] (parts.headD []))
    let keyPointsText := jsTrim (parts.getD 1 [])
    { original := transcription, processed := transcription,
      summary := none, keyPoints := some (parseKeyPoints keyPointsText) }
  else
    { original := original.getD [], processed := result,
      summary := none, keyPoints := none }

/-- `interface GeminiResponse` — a part of a candidate's content. -/
structure GeminiPart where
  text : Option (List Char)
deriving DecidableEq, Repr

/-- `interface GeminiResponse` — a candidate's content. -/
structure GeminiContent where
  parts : Option (List GeminiPart)
deriving DecidableEq, Repr

/-- `interface GeminiResponse` — one candidate. -/
structure GeminiCandidate where
  content : Option GeminiContent
deriving DecidableEq, Repr

/-- `interface GeminiResponse` — the error envelope. -/
structure GeminiError where
  message : List Char
  code : Int
deriving DecidableEq, Repr

/-- `interface GeminiResponse` from gemini-service.ts. -/
structure GeminiResponse where
  candidates : Option (List GeminiCandidate)
  error : Option GeminiError
deriving DecidableEq, Repr

/-- The optional chain
`data.candidates?.[0]?.content?.parts?.[0]?.text?.trim()` (empty string fallback) from
`GeminiService.makeRequest`. -/
def extractText (data : GeminiResponse) : List Char :=
  match data.candidates with
  | none => []
  | some cs =>
    match cs.head? with
    | none => []
    | some c =>
      match c.content with
      | none => []
      | some ct =>
        match ct.parts with
        | none => []
        | some ps =>
          match ps.head? with
          | none => []
          | some p =>
            match p.text with
            | none => []
            | some t => jsTrim t

/-- The response handling of `GeminiService.makeRequest`: a present
`error` envelope is thrown (`Except.error` with its message), otherwise the
first candidate's first text part, trimmed, empty when absent. -/
def makeRequest (data : GeminiResponse) : Except (List Char) (List Char) :=
  match data.error with
  | some e => Except.error e.message
  | none => Except.ok (extractText data)

/-- The first candidate's first text part of a response, written as a
plain optional chain; used to state what `makeRequest` returns. -/
def firstPartText (data : GeminiResponse) : Option (List Char) :=
  ((((data.candidates.bind List.head?).bind GeminiCandidate.content).bind
    GeminiContent.parts).bind List.head?).bind GeminiPart.text

/-- The outcome of the `fetch` inside `GeminiService.validateApiKey`:
either an HTTP response with a status code, or a transport failure
(the `catch` path). -/
inductive FetchResult where
  | response (status : Nat)
  | networkError
deriving DecidableEq, Repr

/-- WHATWG `Response.ok`: status in the inclusive range 200–299. -/
def responseOk (status : Nat) : Bool :=
  decide (200 ≤ status ∧ status ≤ 299)

/-- `GeminiService.validateApiKey`: returns `response.ok`, and `false`
when the fetch throws. -/
def validateApiKey : FetchResult → Bool
  | FetchResult.response s => responseOk s
  | FetchResult.networkError => false

/-- `DEMO_TRANSCRIPTIONS` from gemini-service.ts. -/
def DEMO_TRANSCRIPTIONS : List (List Char) :=
  [("Hello, this is a demo transcription. The actual transcription would appear here when you connect your Gemini API key.").toList,
   ("Welcome to RawHash voice transcription. This demo shows how your transcribed text would appear.").toList,
   ("In demo mode, you can explore all the features without needing an API key. Connect your Gemini API key to get real transcriptions.").toList]

/-- `DEMO_SUMMARIES` from gemini-service.ts. -/
def DEMO_SUMMARIES : List (List Char) :=
  [("This is a demo showing the transcription feature. Connect your API key for real results.").toList,
   ("RawHash demonstrates voice-to-text capabilities with AI processing.").toList,
   ("Demo mode allows exploring features without API configuration.").toList]

/-- `DEMO_KEY_POINTS` from gemini-service.ts. -/
def DEMO_KEY_POINTS : List (List (List Char)) :=
  [[("Demo transcription feature").toList, ("API key required for full functionality").toList, ("Explore all features in demo mode").toList],
   [("Voice to text conversion").toList, ("AI-powered processing").toList, ("Multiple enhancement options").toList],
   [("Clean transcriptions").toList, ("Summary generation").toList, ("Key points extraction").toList]]

/-- `getDemoProcessedResult(mode)`; the `Math.floor(Math.random() * 3)`
index is made an explicit `Fin 3` argument. -/
def getDemoProcessedResult (mode : ProcessingMode) (randomIndex : Fin 3) :
    ProcessedResult :=
  let original := DEMO_TRANSCRIPTIONS.getD randomIndex.val []
  match mode with
  | ProcessingMode.summary =>
    { original := original, processed := original,
      summary := some (DEMO_SUMMARIES.getD randomIndex.val []), keyPoints := none }
  | ProcessingMode.keypoints =>
    { original := original, processed := original,
      summary := none, keyPoints := some (DEMO_KEY_POINTS.getD randomIndex.val []) }
  | ProcessingMode.clean =>
    { original := original, processed := removeFillers original,
      summary := none, keyPoints := none }
  | ProcessingMode.professional =>
    { original := original, processed := removeFillers original,
      summary := none, keyPoints := none }
  | ProcessingMode.concise =>
    { original := original, processed := removeFillers original,
      summary := none, keyPoints := none }
  | ProcessingMode.raw =>
    { original := original, processed := original,
      summary := none, keyPoints := none }

/-! ## Embedding of `src/stores/api-key-store.ts` and the auth context -/

/-- The environment credential: `hasEnvApiKey() ? Config.gemini.apiKey :
null`, where `hasEnvApiKey()` is `Boolean(Config.gemini.apiKey)` and the
configured key defaults to the empty string.  The raw configured string is
the argument. -/
def envKeyOf (envRaw : List Char) : Option (List Char) :=
  if envRaw = [] then none else some envRaw

/-- `interface ApiKeyState` of the zustand store (the persisted fields;
`isAuthenticated` is computed, not stored). -/
structure ApiKeyState where
  apiKey : Option (List Char)
  isEnvKey : Bool
  isDemoMode : Bool
deriving DecidableEq, Repr

/-- `setApiKey` of the zustand store: stores the key, marks it
user-entered, and leaves Demo Mode. -/
def setApiKey (key : List Char) (_s : ApiKeyState) : ApiKeyState :=
  { apiKey := some key, isEnvKey := false, isDemoMode := false }

/-- `clearApiKey` of the zustand store: falls back to the environment
credential (or to no credential); `isDemoMode` is untouched. -/
def clearApiKey (envRaw : List Char) (s : ApiKeyState) : ApiKeyState :=
  { s with apiKey := envKeyOf envRaw, isEnvKey := (envKeyOf envRaw).isSome }

/-- The computed selector `isDemoMode || apiKey !== null`. -/
def selectIsAuthenticated (s : ApiKeyState) : Bool :=
  s.isDemoMode || s.apiKey.isSome

/-- `interface AuthState` of `AuthProvider` (contexts/auth-context);
here `isAuthenticated` is materialized state. -/
structure AuthState where
  isAuthenticated : Bool
  isDemoMode : Bool
  apiKey : Option (List Char)
  isEnvKey : Bool
deriving DecidableEq, Repr

/-- `AuthProvider.setApiKey`: stores the key, sets `isAuthenticated`,
leaves Demo Mode, marks the key user-entered. -/
def authSetApiKey (key : List Char) (s : AuthState) : AuthState :=
  { s with apiKey := some key, isAuthenticated := true,
           isDemoMode := false, isEnvKey := false }

/-- `AuthProvider.clearApiKey`: falls back to the environment credential;
`isDemoMode` is untouched. -/
def authClearApiKey (envRaw : List Char) (s : AuthState) : AuthState :=
  { s with apiKey := envKeyOf envRaw,
           isAuthenticated := (envKeyOf envRaw).isSome,
           isEnvKey := (envKeyOf envRaw).isSome }

/-! ## Embedding of `handleTranscribe` from `src/app/(tabs)/record.tsx` -/

/-- What one invocation of `handleTranscribe` does, abstracted to the
branch taken: nothing (unknown recording id), the demo path, one network
request through `GeminiService`, or a thrown precondition failure. -/
inductive TranscribeOutcome where
  | noop
  | demo
  | network (key : List Char)
  | fail (msg : List Char)
deriving DecidableEq, Repr

/-- The message of the error thrown by `handleTranscribe` when neither
Demo Mode nor a credential is available. -/
def NO_API_KEY_MSG : List Char := "No API key configured".toList

/-- The branch structure of `handleTranscribe(recordingId, mode)`:
return early if the recording is unknown; else Demo Mode wins; else a
configured key causes exactly one `GeminiService` request; else the
precondition failure is thrown (and caught into the inline error state). -/
def handleTranscribe (found : Bool) (isDemoMode : Bool)
    (apiKey : Option (List Char)) : TranscribeOutcome :=
  if found = false then TranscribeOutcome.noop
  else if isDemoMode then TranscribeOutcome.demo
  else
    match apiKey with
    | some k => TranscribeOutcome.network k
    | none => TranscribeOutcome.fail NO_API_KEY_MSG

/-- Number of outbound network requests an outcome performs. -/
def networkCalls : TranscribeOutcome → Nat
  | TranscribeOutcome.network _ => 1
  | _ => 0

/-- The error message the screen surfaces (`setError(err.message)` in the
catch block), if any. -/
def surfacedError : TranscribeOutcome → Option (List Char)
  | TranscribeOutcome.fail m => some m
  | _ => none

/-! ## Embedding of the recording timer (`useAudioRecording`) -/

/-- The interval callback body: `duration = Math.floor((Date.now() -
startTime.current) / 1000)`.  Times are integer milliseconds. -/
def tickDuration (startTime now : Int) : Int :=
  (now - startTime).fdiv 1000

/-- `resumeRecording`: `startTime.current = Date.now() - pausedDuration *
1000`, where `pausedDuration` is the `duration` field frozen at `pause()`
(the pause handler cancels the interval, so `duration` stops moving). -/
def resumeBaseline (resumeAt pausedDuration : Int) : Int :=
  resumeAt - pausedDuration * 1000

/-- `M` has no non-trivial border: no proper non-empty suffix of `M` equals
a prefix of `M`.  All three markers satisfy this (decidably), which rules
out separator occurrences straddling an explicitly appended marker. -/
def noBorder (M : List Char) : Prop :=
  ∀ k, k < M.length → 0 < k → M.drop (M.length - k) ≠ M.take k

instance (M : List Char) : Decidable (noBorder M) := by
  unfold noBorder; infer_instance

/-- The response-shape discipline of the `ProcessedResult` invariant:
which structured field may be present is fixed by the mode, and the other
one is absent. -/
def structuredShape : ProcessingMode → ProcessedResult → Prop
  | ProcessingMode.summary, p => p.keyPoints = none
  | ProcessingMode.keypoints, p => p.summary = none
  | _, p => p.summary = none ∧ p.keyPoints = none

/-- A mode/response pair of the catalog (spec section 4.3): for the plain
modes any response; for `summary`/`keypoints` either a marker-free
response or a well-formed two-part response whose part texts do not
themselves contain markers. -/
def validResponse : ProcessingMode → List Char → Prop
  | ProcessingMode.summary, r =>
      ¬ TM <:+: r ∨
      ∃ a b, r = TM ++ a ++ SM ++ b ∧ ¬ TM <:+: a ∧ ¬ SM <:+: a ∧ ¬ SM <:+: b
  | ProcessingMode.keypoints, r =>
      ¬ TM <:+: r ∨
      ∃ a b, r = TM ++ a ++ KM ++ b ∧ ¬ TM <:+: a ∧ ¬ KM <:+: a ∧ ¬ KM <:+: b
  | _, _ => True

/-! ## Lemmas about occurrences, splitting and trimming -/

/-- An occurrence of `M` inside `x ++ y` lies inside `x`, inside `y`, or
straddles the boundary with a non-trivial split of `M`. -/
theorem occAppend {M x y : List Char} (h : M <:+: (x ++ y)) :
    M <:+: x ∨ M <:+: y ∨
      ∃ k, 0 < k ∧ k < M.length ∧ M.take k <:+ x ∧ M.drop k <+: y := by
  obtain ⟨u, v, huv⟩ := h
  rw [List.append_assoc] at huv
  rcases List.append_eq_append_iff.mp huv with ⟨a', hx, hMv⟩ | ⟨c', _, hy⟩
  · rcases List.append_eq_append_iff.mp hMv with ⟨b', ha', hv⟩ | ⟨b', hM, hy2⟩
    · exact Or.inl ⟨u, b', by rw [hx, ha', List.append_assoc]⟩
    · rcases eq_or_ne a' [] with rfl | hane
      · refine Or.inr (Or.inl ⟨[], v, ?_⟩)
        simp only [List.nil_append] at hM
        simp [hy2, hM]
      · rcases eq_or_ne b' [] with rfl | hbne
        · rw [List.append_nil] at hM
          exact Or.inl ⟨u, [], by rw [List.append_nil, hx, hM]⟩
        · refine Or.inr (Or.inr ⟨a'.length, List.length_pos.mpr hane, ?_, ?_, ?_⟩)
          · rw [hM, List.length_append]
            have := List.length_pos.mpr hbne
            omega
          · rw [hM, List.take_left, hx]
            exact List.suffix_append u a'
          · rw [hM, List.drop_left, hy2]
            exact List.prefix_append b' v
  · refine Or.inr (Or.inl ⟨c', v, ?_⟩)
    rw [List.append_assoc, ← hy]

/-- If `M` occurs in neither part and no non-empty proper prefix of `M` is
a suffix of `x`, then `M` does not occur in `x ++ y`. -/
theorem notOccurAppend {M x y : List Char} (hx : ¬ M <:+: x) (hy : ¬ M <:+: y)
    (hst : ∀ k, k < M.length → 0 < k → ¬ M.take k <:+ x) :
    ¬ M <:+: (x ++ y) := by
  intro h
  rcases occAppend h with h1 | h2 | ⟨k, hk0, hkM, hsx, _⟩
  exacts [hx h1, hy h2, hst k hkM hk0 hsx]

/-- A border-free `M` that does not occur in a non-empty `x` cannot match
at the front of `x ++ M ++ y`. -/
theorem matchAtFront_eq_false {M x : List Char} (y : List Char)
    (hB : noBorder M) (hx : ¬ M <:+: x) (hxne : x ≠ []) :
    M.isPrefixOf (x ++ M ++ y) = false := by
  by_contra hb
  rw [Bool.not_eq_false] at hb
  have hp : M <+: (x ++ M ++ y) := List.isPrefixOf_iff_prefix.mp hb
  have heq : M = (x ++ M ++ y).take M.length := List.prefix_iff_eq_take.mp hp
  rw [List.append_assoc] at heq
  by_cases hc : M.length ≤ x.length
  · rw [List.take_append_of_le_length hc] at heq
    exact hx (by rw [heq]; exact ( List.take_prefix _ _).isInfix)
  · push_neg at hc
    have hxpos : 0 < x.length := List.length_pos.mpr hxne
    have hk0 : 0 < M.length - x.length := by omega
    have hkM : M.length - x.length < M.length := by omega
    have heq2 : M = x ++ M.take (M.length - x.length) := by
      conv_lhs => rw [heq]
      rw [List.take_append_eq_append_take, List.take_of_length_le (le_of_lt hc),
        List.take_append_of_le_length (by omega)]
    have hdrop : M.drop x.length = M.take (M.length - x.length) := by
      conv_lhs => rw [heq2]
      rw [List.drop_left]
    have hxlen : x.length = M.length - (M.length - x.length) := by omega
    exact hB (M.length - x.length) hkM hk0 (by rw [← hxlen]; exact hdrop)

theorem splitSeqGo_skip (sep : List Char) :
    ∀ (x y acc : List Char),
      splitSeqGo sep (x ++ y) x.length acc = splitSeqGo sep y 0 acc := by
  intro x
  induction x with
  | nil => intro y acc; rfl
  | cons c x ih =>
    intro y acc
    show splitSeqGo sep (c :: (x ++ y)) (x.length + 1) acc = _
    rw [splitSeqGo]
    exact ih y acc

theorem splitSeqGo_none (sep : List Char) (_hM : sep ≠ []) :
    ∀ (s acc : List Char), ¬ sep <:+: s →
      splitSeqGo sep s 0 acc = [acc.reverse ++ s] := by
  intro s
  induction s with
  | nil => intro acc _; simp [splitSeqGo]
  | cons c s ih =>
    intro acc h
    have hp : sep.isPrefixOf (c :: s) = false := by
      by_contra hb
      rw [Bool.not_eq_false] at hb
      exact h ( List.isPrefixOf_iff_prefix.mp hb).isInfix
    have hs : ¬ sep <:+: s := fun hh => h ( List.infix_cons hh)
    rw [splitSeqGo, if_neg (by simp [hp])]
    rw [ih (c :: acc) hs]
    simp

/-- Splitting a string that starts with the separator. -/
theorem splitSeqGo_front (sep : List Char) (hM : sep ≠ []) (y acc : List Char) :
    splitSeqGo sep (sep ++ y) 0 acc = acc.reverse :: splitSeqGo sep y 0 [] := by
  cases sep with
  | nil => exact absurd rfl hM
  | cons c s' =>
    show splitSeqGo (c :: s') (c :: (s' ++ y)) 0 acc = _
    rw [splitSeqGo,
      if_pos ⟨ List.isPrefixOf_iff_prefix.mpr (List.prefix_append (c :: s') y), by simp⟩]
    have hlen : (c :: s').length - 1 = s'.length := by simp
    rw [hlen, splitSeqGo_skip]

theorem splitSeqGo_marker (sep : List Char) (hM : sep ≠ []) (hB : noBorder sep) :
    ∀ (x y acc : List Char), ¬ sep <:+: x →
      splitSeqGo sep (x ++ sep ++ y) 0 acc =
        (acc.reverse ++ x) :: splitSeqGo sep y 0 [] := by
  intro x
  induction x with
  | nil =>
    intro y acc _
    simp only [List.nil_append, List.append_nil]
    exact splitSeqGo_front sep hM y acc
  | cons c x ih =>
    intro y acc hx
    have hp := matchAtFront_eq_false y hB hx (by simp)
    have hxs : ¬ sep <:+: x := fun hh => hx ( List.infix_cons hh)
    rw [show (c :: x) ++ sep ++ y = c :: (x ++ sep ++ y) from by simp] at hp ⊢
    rw [splitSeqGo, if_neg (by rw [hp]; simp)]
    rw [ih y (c :: acc) hxs]
    simp

/-- JavaScript split when the separator does not occur: one token, the
whole string. -/
theorem splitSeq_none {sep : List Char} (hM : sep ≠ []) {s : List Char}
    (h : ¬ sep <:+: s) : splitSeq sep s = [s] := by
  unfold splitSeq
  rw [splitSeqGo_none sep hM s [] h]
  rfl

/-- JavaScript split on `x ++ sep ++ y` when `sep` is border-free and does
not occur in `x`: the first token is `x`, the rest is the split of `y`. -/
theorem splitSeq_marker {sep : List Char} (hM : sep ≠ []) (hB : noBorder sep)
    {x : List Char} (y : List Char) (hx : ¬ sep <:+: x) :
    splitSeq sep (x ++ sep ++ y) = x :: splitSeq sep y := by
  unfold splitSeq
  rw [splitSeqGo_marker sep hM hB x y [] hx]
  rfl

/-- First-occurrence replacement at the very front. -/
theorem replaceFirst_front (pat rep l : List Char) (h : pat ≠ []) :
    replaceFirst pat rep (pat ++ l) = rep ++ l := by
  cases pat with
  | nil => exact absurd rfl h
  | cons c p' =>
    show replaceFirst (c :: p') rep (c :: (p' ++ l)) = rep ++ l
    rw [replaceFirst,
      if_pos ⟨ List.isPrefixOf_iff_prefix.mpr (List.prefix_append (c :: p') l), by simp⟩]
    have hlen : (c :: p').length - 1 = p'.length := by simp
    rw [hlen, List.drop_left]

/-- Trimming yields a contiguous piece of the original string. -/
theorem jsTrim_within (s : List Char) : jsTrim s <:+: s := by
  unfold jsTrim
  have h1 : s.dropWhile isJsWs <:+ s := List.dropWhile_suffix _
  have h2 : ((s.dropWhile isJsWs).reverse.dropWhile isJsWs).reverse <+:
      s.dropWhile isJsWs := by
    apply List.reverse_suffix.mp
    rw [List.reverse_reverse]
    exact List.dropWhile_suffix _
  exact h2.isInfix.trans h1.isInfix

/-- `parseProcessedResult` on a well-formed two-part summary response. -/
theorem parse_summary_eq (a b : List Char) (orig : Option (List Char))
    (ha : ¬ SM <:+: a) (hb : ¬ SM <:+: b) :
    parseProcessedResult (TM ++ a ++ SM ++ b) ProcessingMode.summary orig =
      { original := jsTrim a, processed := jsTrim a,
        summary := some (jsTrim b), keyPoints := none } := by
  have hTM : TM <:+: (TM ++ a ++ SM ++ b) := by
    have h := (List.prefix_append TM ((a ++ SM) ++ b)).isInfix
    simpa [List.append_assoc] using h
  have hxTA : ¬ SM <:+: (TM ++ a) := notOccurAppend (by decide) ha (by decide)
  have hsplit : splitSeq SM (TM ++ a ++ SM ++ b) = (TM ++ a) :: [b] := by
    rw [splitSeq_marker (by decide) (by decide) b hxTA, splitSeq_none (by decide) hb]
  have hrep : replaceFirst TM [] (TM ++ a) = a := by
    rw [replaceFirst_front TM [] a (by decide), List.nil_append]
  unfold parseProcessedResult
  rw [if_pos ⟨rfl, hTM⟩]
  simp only [hsplit, hrep, List.headD_cons, List.getD_cons_succ, List.getD_cons_zero]

/-- `parseProcessedResult` on a well-formed two-part key-points response. -/
theorem parse_keypoints_eq (a b : List Char) (orig : Option (List Char))
    (ha : ¬ KM <:+: a) (hb : ¬ KM <:+: b) :
    parseProcessedResult (TM ++ a ++ KM ++ b) ProcessingMode.keypoints orig =
      { original := jsTrim a, processed := jsTrim a,
        summary := none, keyPoints := some (parseKeyPoints (jsTrim b)) } := by
  have hTM : TM <:+: (TM ++ a ++ KM ++ b) := by
    have h := (List.prefix_append TM ((a ++ KM) ++ b)).isInfix
    simpa [List.append_assoc] using h
  have hxTA : ¬ KM <:+: (TM ++ a) := notOccurAppend (by decide) ha (by decide)
  have hsplit : splitSeq KM (TM ++ a ++ KM ++ b) = (TM ++ a) :: [b] := by
    rw [splitSeq_marker (by decide) (by decide) b hxTA, splitSeq_none (by decide) hb]
  have hrep : replaceFirst TM [] (TM ++ a) = a := by
    rw [replaceFirst_front TM [] a (by decide), List.nil_append]
  unfold parseProcessedResult
  rw [if_neg (by rintro ⟨h, -⟩; exact absurd h (by decide)), if_pos ⟨rfl, hTM⟩]
  simp only [hsplit, hrep, List.headD_cons, List.getD_cons_succ, List.getD_cons_zero]

/-- Without the `TRANSCRIPTION:` marker both structured branches are
skipped and the fall-through result is produced, for every mode. -/
theorem parse_of_not_marker {r : List Char} (mode : ProcessingMode)
    (orig : Option (List Char)) (h : ¬ TM <:+: r) :
    parseProcessedResult r mode orig =
      { original := orig.getD [], processed := r,
        summary := none, keyPoints := none } := by
  unfold parseProcessedResult
  rw [if_neg (fun hc => h hc.2), if_neg (fun hc => h hc.2)]

/-- For the four plain modes the fall-through result is produced, for
every response. -/
theorem parse_of_plain_mode {r : List Char} {mode : ProcessingMode}
    (orig : Option (List Char)) (h1 : mode ≠ ProcessingMode.summary)
    (h2 : mode ≠ ProcessingMode.keypoints) :
    parseProcessedResult r mode orig =
      { original := orig.getD [], processed := r,
        summary := none, keyPoints := none } := by
  unfold parseProcessedResult
  rw [if_neg (fun hc => h1 hc.1), if_neg (fun hc => h2 hc.1)]

/-- Claim C1: for modes `summary` and `keypoints`, when the expected
marker `TRANSCRIPTION:` does not occur in the response, the whole response
becomes `processedText`, the structured field (`summary`/`keyPoints`)
stays unset, and no error is raised (the parser is a total function). -/
theorem c1_no_marker_fallthrough (r : List Char) (mode : ProcessingMode)
    (orig : Option (List Char))
    (_hmode : mode = ProcessingMode.summary ∨ mode = ProcessingMode.keypoints)
    (h : ¬ TM <:+: r) :
    (parseProcessedResult r mode orig).processed = r ∧
    (parseProcessedResult r mode orig).summary = none ∧
    (parseProcessedResult r mode orig).keyPoints = none := by
  rw [parse_of_not_marker mode orig h]
  exact ⟨rfl, rfl, rfl⟩

theorem c1_witness :
    (ProcessingMode.summary = ProcessingMode.summary ∨
      ProcessingMode.summary = ProcessingMode.keypoints) ∧
    ¬ TM <:+: ("Just some plain text with no markers.").toList ∧
    ((parseProcessedResult ("Just some plain text with no markers.").toList
        ProcessingMode.summary none).processed =
      ("Just some plain text with no markers.").toList ∧
    (parseProcessedResult ("Just some plain text with no markers.").toList
        ProcessingMode.summary none).summary = none ∧
    (parseProcessedResult ("Just some plain text with no markers.").toList
        ProcessingMode.summary none).keyPoints = none) :=
  ⟨Or.inl rfl, by decide,
    c1_no_marker_fallthrough _ ProcessingMode.summary none (Or.inl rfl) (by decide)⟩

/-- Claim C2, counterexample to the universally quantified form: the code
does not discard text before the first marker (it only deletes the first
`TRANSCRIPTION:` occurrence from `parts[0]`), and with a repeated second
marker the summary stops at the next occurrence instead of taking all the
text after the second marker. -/
theorem c2_counterexample :
    (parseProcessedResult ("xTRANSCRIPTION:aSUMMARY:b").toList
        ProcessingMode.summary none).original = ("xa").toList ∧
    ("xa").toList ≠ ("a").toList ∧
    (parseProcessedResult ("TRANSCRIPTION:aSUMMARY:bSUMMARY:c").toList
        ProcessingMode.summary none).summary = some ("b").toList ∧
    some ("b").toList ≠ some ("bSUMMARY:c").toList := by decide

/-- Claim C2 (amended): for every response that is exactly
`TRANSCRIPTION:` ++ a ++ M ++ b with the mode marker `M` occurring in
neither `a` nor `b`, parsing yields `originalText = processedText =
trim(a)` and the structured field from `trim(b)` (for keypoints split into
non-empty trimmed lines with a leading bullet glyph stripped); on the
stub response of end-to-end scenario 2 the result is exactly
`{originalText: Hello world, processedText: Hello world, keyPoints:
[point A, point B]}`. -/
theorem c2_two_marker_parse (a b a' b' : List Char)
    (orig orig' : Option (List Char))
    (hsa : ¬ SM <:+: a) (hsb : ¬ SM <:+: b)
    (hka : ¬ KM <:+: a') (hkb : ¬ KM <:+: b') :
    parseProcessedResult (TM ++ a ++ SM ++ b) ProcessingMode.summary orig =
      { original := jsTrim a, processed := jsTrim a,
        summary := some (jsTrim b), keyPoints := none } ∧
    parseProcessedResult (TM ++ a' ++ KM ++ b') ProcessingMode.keypoints orig' =
      { original := jsTrim a', processed := jsTrim a',
        summary := none, keyPoints := some (parseKeyPoints (jsTrim b')) } ∧
    parseProcessedResult
        ("TRANSCRIPTION:\nHello world\n\nKEY POINTS:\n• point A\n• point B").toList
        ProcessingMode.keypoints none =
      { original := ("Hello world").toList, processed := ("Hello world").toList,
        summary := none,
        keyPoints := some [("point A").toList, ("point B").toList] } :=
  ⟨parse_summary_eq a b orig hsa hsb,
   parse_keypoints_eq a' b' orig' hka hkb,
   by decide⟩

theorem c2_witness :
    ¬ SM <:+: ("\nHello\n\n").toList ∧
    parseProcessedResult (TM ++ ("\nHello\n\n").toList ++ SM ++ ("\nA short one.").toList)
        ProcessingMode.summary none =
      { original := jsTrim ("\nHello\n\n").toList,
        processed := jsTrim ("\nHello\n\n").toList,
        summary := some (jsTrim ("\nA short one.").toList), keyPoints := none } :=
  ⟨by decide,
    (c2_two_marker_parse ("\nHello\n\n").toList ("\nA short one.").toList
      ("x").toList ("y").toList none none (by decide) (by decide) (by decide)
      (by decide)).1⟩

/-- The match cascade of `extractText` agrees with the plain optional
chain `firstPartText`, trimmed, with empty-string fallback. -/
theorem extractText_eq (resp : GeminiResponse) :
    extractText resp = (firstPartText resp).elim [] jsTrim := by
  rcases resp with ⟨cands, err⟩
  cases cands with
  | none => rfl
  | some cs =>
    cases cs with
    | nil => rfl
    | cons c cs' =>
      rcases c with ⟨ct⟩
      cases ct with
      | none => rfl
      | some ct' =>
        rcases ct' with ⟨ps⟩
        cases ps with
        | none => rfl
        | some ps' =>
          cases ps' with
          | nil => rfl
          | cons p ps'' =>
            rcases p with ⟨tx⟩
            cases tx with
            | none => rfl
            | some t => rfl

/-- Claim C3: a present error envelope short-circuits `makeRequest` to a
failure carrying the envelope message; otherwise the result is the first
candidate's first text part, trimmed, and the empty string when that part
is absent anywhere along the optional chain — never an error. -/
theorem c3_makeRequest_contract (resp : GeminiResponse) :
    (∀ e, resp.error = some e → makeRequest resp = Except.error e.message) ∧
    (resp.error = none → ∀ t, firstPartText resp = some t →
      makeRequest resp = Except.ok (jsTrim t)) ∧
    (resp.error = none → firstPartText resp = none →
      makeRequest resp = Except.ok []) := by
  refine ⟨?_, ?_, ?_⟩
  · intro e he
    unfold makeRequest
    rw [he]
  · intro hn t ht
    unfold makeRequest
    rw [hn, extractText_eq, ht]
    rfl
  · intro hn ht
    unfold makeRequest
    rw [hn, extractText_eq, ht]
    rfl

theorem c3_witness :
    makeRequest { candidates := none, error := some { message := ("boom").toList, code := 400 } } =
      Except.error ("boom").toList ∧
    makeRequest
        { candidates := some [{ content := some { parts := some [{ text := some ("  hi  ").toList }] } }],
          error := none } =
      Except.ok (jsTrim ("  hi  ").toList) ∧
    makeRequest { candidates := some [], error := none } = Except.ok [] :=
  ⟨(c3_makeRequest_contract _).1 _ rfl,
   (c3_makeRequest_contract _).2.1 rfl _ rfl,
   (c3_makeRequest_contract _).2.2 rfl rfl⟩

/-- Claim C4: invoking `handleTranscribe` with no credential configured
and Demo Mode off issues zero network requests and surfaces the
`No API key configured` precondition failure as the error message. -/
theorem c4_no_credential_precondition :
    (∀ found : Bool, networkCalls (handleTranscribe found false none) = 0) ∧
    handleTranscribe true false none = TranscribeOutcome.fail NO_API_KEY_MSG ∧
    surfacedError (handleTranscribe true false none) = some NO_API_KEY_MSG := by
  refine ⟨?_, rfl, rfl⟩
  intro found
  cases found <;> rfl

/-- Claim C5: `resume()` reconstitutes the elapsed-time baseline.  With
`d` the duration frozen at `pause()` and `tr` the resume instant, the
recomputed duration equals `d` immediately at `tr`, equals `d` plus the
floored seconds elapsed since `tr` afterwards (so the wall-clock pause gap
is excluded), never drops below `d`, and is monotone in time. -/
theorem c5_resume_continuity (d tr t t' : Int) (_hd : 0 ≤ d) (ht : tr ≤ t)
    (ht' : t ≤ t') :
    tickDuration (resumeBaseline tr d) tr = d ∧
    tickDuration (resumeBaseline tr d) t = d + (t - tr).fdiv 1000 ∧
    d ≤ tickDuration (resumeBaseline tr d) t ∧
    tickDuration (resumeBaseline tr d) t ≤ tickDuration (resumeBaseline tr d) t' := by
  have key : ∀ u : Int, tickDuration (resumeBaseline tr d) u = d + (u - tr).fdiv 1000 := by
    intro u
    unfold tickDuration resumeBaseline
    have h1 : u - (tr - d * 1000) = (u - tr) + d * 1000 := by ring
    rw [h1, Int.fdiv_eq_ediv _ (by norm_num), Int.fdiv_eq_ediv _ (by norm_num),
      Int.add_mul_ediv_right _ _ (by norm_num : (1000 : Int) ≠ 0)]
    ring
  have hnn : 0 ≤ (t - tr).fdiv 1000 := by
    rw [Int.fdiv_eq_ediv _ (by norm_num)]
    exact Int.ediv_nonneg (by omega) (by norm_num)
  have hmono : (t - tr).fdiv 1000 ≤ (t' - tr).fdiv 1000 := by
    rw [Int.fdiv_eq_ediv _ (by norm_num), Int.fdiv_eq_ediv _ (by norm_num)]
    exact Int.ediv_le_ediv (by norm_num) (by omega)
  refine ⟨?_, key t, ?_, ?_⟩
  · rw [key tr]
    simp
  · rw [key t]
    omega
  · rw [key t, key t']
    omega

theorem c5_witness :
    (0 : Int) ≤ 5 ∧
    (tickDuration (resumeBaseline 1000000 5) 1000000 = 5 ∧
     tickDuration (resumeBaseline 1000000 5) 1000234 = 5 + ((1000234 : Int) - 1000000).fdiv 1000 ∧
     (5 : Int) ≤ tickDuration (resumeBaseline 1000000 5) 1000234 ∧
     tickDuration (resumeBaseline 1000000 5) 1000234 ≤
       tickDuration (resumeBaseline 1000000 5) 1003000) :=
  ⟨by decide,
    c5_resume_continuity 5 1000000 1000234 1003000 (by decide) (by decide) (by decide)⟩

/-- Claim C6: on every valid mode/response pair of the catalog, parsing is
idempotent on the processed text — re-parsing the already split
`processedText` with the same mode splits nothing further. -/
theorem c6_idempotent (mode : ProcessingMode) (r : List Char)
    (orig orig' : Option (List Char)) (hv : validResponse mode r) :
    (parseProcessedResult (parseProcessedResult r mode orig).processed mode orig').processed
      = (parseProcessedResult r mode orig).processed := by
  cases mode with
  | summary =>
    rcases hv with h | ⟨a, b, rfl, hTa, hSa, hSb⟩
    · rw [parse_of_not_marker ProcessingMode.summary orig h]
      show (parseProcessedResult r ProcessingMode.summary orig').processed = r
      rw [parse_of_not_marker ProcessingMode.summary orig' h]
    · rw [parse_summary_eq a b orig hSa hSb]
      show (parseProcessedResult (jsTrim a) ProcessingMode.summary orig').processed = jsTrim a
      have hna : ¬ TM <:+: jsTrim a := fun hq => hTa (hq.trans (jsTrim_within a))
      rw [parse_of_not_marker ProcessingMode.summary orig' hna]
  | keypoints =>
    rcases hv with h | ⟨a, b, rfl, hTa, hKa, hKb⟩
    · rw [parse_of_not_marker ProcessingMode.keypoints orig h]
      show (parseProcessedResult r ProcessingMode.keypoints orig').processed = r
      rw [parse_of_not_marker ProcessingMode.keypoints orig' h]
    · rw [parse_keypoints_eq a b orig hKa hKb]
      show (parseProcessedResult (jsTrim a) ProcessingMode.keypoints orig').processed = jsTrim a
      have hna : ¬ TM <:+: jsTrim a := fun hq => hTa (hq.trans (jsTrim_within a))
      rw [parse_of_not_marker ProcessingMode.keypoints orig' hna]
  | raw =>
    rw [parse_of_plain_mode orig (by decide) (by decide)]
    show (parseProcessedResult r ProcessingMode.raw orig').processed = r
    rw [parse_of_plain_mode orig' (by decide) (by decide)]
  | clean =>
    rw [parse_of_plain_mode orig (by decide) (by decide)]
    show (parseProcessedResult r ProcessingMode.clean orig').processed = r
    rw [parse_of_plain_mode orig' (by decide) (by decide)]
  | professional =>
    rw [parse_of_plain_mode orig (by decide) (by decide)]
    show (parseProcessedResult r ProcessingMode.professional orig').processed = r
    rw [parse_of_plain_mode orig' (by decide) (by decide)]
  | concise =>
    rw [parse_of_plain_mode orig (by decide) (by decide)]
    show (parseProcessedResult r ProcessingMode.concise orig').processed = r
    rw [parse_of_plain_mode orig' (by decide) (by decide)]

theorem c6_witness :
    validResponse ProcessingMode.summary
      (TM ++ (" hi there ").toList ++ SM ++ (" a short summary ").toList) ∧
    (parseProcessedResult
        (parseProcessedResult
          (TM ++ (" hi there ").toList ++ SM ++ (" a short summary ").toList)
          ProcessingMode.summary none).processed
        ProcessingMode.summary none).processed =
      (parseProcessedResult
        (TM ++ (" hi there ").toList ++ SM ++ (" a short summary ").toList)
        ProcessingMode.summary none).processed := by
  have hv : validResponse ProcessingMode.summary
      (TM ++ (" hi there ").toList ++ SM ++ (" a short summary ").toList) :=
    Or.inr ⟨(" hi there ").toList, (" a short summary ").toList, rfl,
      by decide, by decide, by decide⟩
  exact ⟨hv, c6_idempotent ProcessingMode.summary _ none none hv⟩

/-- Claim C7: clearing the credential store restores the environment
credential when one is configured (an environment-origin credential
survives clearing); with no environment credential the store is left
empty and a subsequent `get()` returns null.  Both the zustand store and
the `AuthProvider` context behave this way. -/
theorem c7_clear_restores_env (envRaw : List Char) (s : ApiKeyState)
    (a : AuthState) :
    (envRaw ≠ [] →
      (clearApiKey envRaw s).apiKey = some envRaw ∧
      (clearApiKey envRaw s).isEnvKey = true ∧
      (authClearApiKey envRaw a).apiKey = some envRaw) ∧
    (envRaw = [] →
      (clearApiKey envRaw s).apiKey = none ∧
      (clearApiKey envRaw s).isEnvKey = false ∧
      (authClearApiKey envRaw a).apiKey = none ∧
      (authClearApiKey envRaw a).isAuthenticated = false) := by
  constructor
  · intro h
    simp [clearApiKey, authClearApiKey, envKeyOf, h]
  · intro h
    subst h
    simp [clearApiKey, authClearApiKey, envKeyOf]

theorem c7_witness :
    (((clearApiKey ("envkey").toList { apiKey := some ("user").toList, isEnvKey := false, isDemoMode := false }).apiKey = some ("envkey").toList ∧
      (clearApiKey ("envkey").toList { apiKey := some ("user").toList, isEnvKey := false, isDemoMode := false }).isEnvKey = true ∧
      (authClearApiKey ("envkey").toList { isAuthenticated := true, isDemoMode := false, apiKey := some ("user").toList, isEnvKey := false }).apiKey = some ("envkey").toList) ∧
    ((clearApiKey [] { apiKey := some ("user").toList, isEnvKey := false, isDemoMode := false }).apiKey = none ∧
      (clearApiKey [] { apiKey := some ("user").toList, isEnvKey := false, isDemoMode := false }).isEnvKey = false ∧
      (authClearApiKey [] { isAuthenticated := true, isDemoMode := false, apiKey := some ("user").toList, isEnvKey := false }).apiKey = none ∧
      (authClearApiKey [] { isAuthenticated := true, isDemoMode := false, apiKey := some ("user").toList, isEnvKey := false }).isAuthenticated = false)) :=
  ⟨(c7_clear_restores_env ("envkey").toList
      { apiKey := some ("user").toList, isEnvKey := false, isDemoMode := false }
      { isAuthenticated := true, isDemoMode := false, apiKey := some ("user").toList, isEnvKey := false }).1 (by decide),
   (c7_clear_restores_env []
      { apiKey := some ("user").toList, isEnvKey := false, isDemoMode := false }
      { isAuthenticated := true, isDemoMode := false, apiKey := some ("user").toList, isEnvKey := false }).2 rfl⟩

/-- The shape of every parser result follows the mode. -/
theorem parse_structuredShape (r : List Char) (mode : ProcessingMode)
    (orig : Option (List Char)) :
    structuredShape mode (parseProcessedResult r mode orig) := by
  cases mode with
  | summary =>
    show (parseProcessedResult r ProcessingMode.summary orig).keyPoints = none
    unfold parseProcessedResult
    split
    · rfl
    · split
      · rename_i h
        exact absurd h.1 (by decide)
      · rfl
  | keypoints =>
    show (parseProcessedResult r ProcessingMode.keypoints orig).summary = none
    unfold parseProcessedResult
    split
    · rename_i h
      exact absurd h.1 (by decide)
    · split
      · rfl
      · rfl
  | raw =>
    rw [parse_of_plain_mode orig (by decide) (by decide)]
    exact ⟨rfl, rfl⟩
  | clean =>
    rw [parse_of_plain_mode orig (by decide) (by decide)]
    exact ⟨rfl, rfl⟩
  | professional =>
    rw [parse_of_plain_mode orig (by decide) (by decide)]
    exact ⟨rfl, rfl⟩
  | concise =>
    rw [parse_of_plain_mode orig (by decide) (by decide)]
    exact ⟨rfl, rfl⟩

/-- The shape of every demo result follows the mode. -/
theorem demo_structuredShape (mode : ProcessingMode) (i : Fin 3) :
    structuredShape mode (getDemoProcessedResult mode i) := by
  cases mode with
  | summary => exact rfl
  | keypoints => exact rfl
  | raw => exact ⟨rfl, rfl⟩
  | clean => exact ⟨rfl, rfl⟩
  | professional => exact ⟨rfl, rfl⟩
  | concise => exact ⟨rfl, rfl⟩

/-- Claim C8: on every result of the real parsing path and of the demo
path, `summary` and `keyPoints` are never both present, and which one may
be present is fixed by the mode (`summary` only for mode `summary`,
`keyPoints` only for mode `keypoints`; neither for the plain modes). -/
theorem c8_structured_invariant (mode : ProcessingMode) (r : List Char)
    (orig : Option (List Char)) (i : Fin 3) :
    ((parseProcessedResult r mode orig).summary = none ∨
      (parseProcessedResult r mode orig).keyPoints = none) ∧
    structuredShape mode (parseProcessedResult r mode orig) ∧
    ((getDemoProcessedResult mode i).summary = none ∨
      (getDemoProcessedResult mode i).keyPoints = none) ∧
    structuredShape mode (getDemoProcessedResult mode i) := by
  refine ⟨?_, parse_structuredShape r mode orig, ?_, demo_structuredShape mode i⟩
  · have h := parse_structuredShape r mode orig
    cases mode with
    | summary => exact Or.inr h
    | keypoints => exact Or.inl h
    | raw => exact Or.inl h.1
    | clean => exact Or.inl h.1
    | professional => exact Or.inl h.1
    | concise => exact Or.inl h.1
  · have h := demo_structuredShape mode i
    cases mode with
    | summary => exact Or.inr h
    | keypoints => exact Or.inl h
    | raw => exact Or.inl h.1
    | clean => exact Or.inl h.1
    | professional => exact Or.inl h.1
    | concise => exact Or.inl h.1

/-- Claim C9: `validateApiKey` is a total boolean function of the fetch
outcome (it never throws); it returns `true` exactly for an HTTP response
with a 2xx status, and `false` for every other status and for every
transport failure. -/
theorem c9_validate_boolean (r : FetchResult) :
    validateApiKey r = true ↔
      ∃ s, r = FetchResult.response s ∧ 200 ≤ s ∧ s ≤ 299 := by
  cases r with
  | response s =>
    simp only [validateApiKey, responseOk, decide_eq_true_eq]
    constructor
    · intro h
      exact ⟨s, rfl, h.1, h.2⟩
    · rintro ⟨s', hs, h1, h2⟩
      cases hs
      exact ⟨h1, h2⟩
  | networkError =>
    simp [validateApiKey]

theorem c9_witness :
    validateApiKey (FetchResult.response 200) = true ∧
    validateApiKey (FetchResult.response 401) = false ∧
    validateApiKey FetchResult.networkError = false :=
  ⟨(c9_validate_boolean (FetchResult.response 200)).mpr ⟨200, rfl, by decide, by decide⟩,
   by decide, by decide⟩

/-- Claim C10, counterexample to the frame part: the `AuthProvider`
implementation of `setApiKey` does not leave the rest of the state
unchanged — it also forces `isAuthenticated` to `true`. -/
theorem c10_counterexample :
    (authSetApiKey ("k").toList
        { isAuthenticated := false, isDemoMode := false, apiKey := none, isEnvKey := false }).isAuthenticated ≠
      ({ isAuthenticated := false, isDemoMode := false, apiKey := none, isEnvKey := false } : AuthState).isAuthenticated := by
  decide

/-- Claim C10 (amended): `setApiKey(key)` always marks the stored
credential user-entered (`isEnvKey := false`, independently of the
environment credential), always exits Demo Mode (`isDemoMode := false`),
and stores the key; the zustand store changes nothing else (its state is
exactly these three fields), while the `AuthProvider` implementation
additionally sets `isAuthenticated` to `true`. -/
theorem c10_set_key_effects (key : List Char) (s : ApiKeyState) (a : AuthState) :
    setApiKey key s = { apiKey := some key, isEnvKey := false, isDemoMode := false } ∧
    (authSetApiKey key a).apiKey = some key ∧
    (authSetApiKey key a).isEnvKey = false ∧
    (authSetApiKey key a).isDemoMode = false ∧
    (authSetApiKey key a).isAuthenticated = true :=
  ⟨rfl, rfl, rfl, rfl, rfl⟩
